import Mathlib

/-!
Shallow embedding of `src/pyproject_scaffold/main.py` (pyproject-scaffold).

Python dicts are modelled as insertion-ordered association lists
(`List (String × α)`): assigning to an existing key replaces its value in
place, assigning to a fresh key appends it at the end, exactly as CPython
dicts behave.  TOML values are the inductive `Toml`.

The bundled template `static/pyproject.toml` is data that is not part of the
sources, so `Pyproject.init` takes the already-parsed template document as a
parameter instead of reading a file; everything else follows the Python text
line by line.

Aliasing: in the Python code `self.project` is the dict object stored under
the document's "project" key, and `self.optional_dependencies` /
`self.scripts`, once created, are the dict objects stored under the project
table's "optional-dependencies" / "scripts" keys.  The state therefore keeps
the template's top level and the current project table separately
(`Pyproject.document` reassembles the full document), and every write to the
optional-dependencies / scripts attribute is mirrored into the project table,
which is exactly what mutating the shared dict object does.
-/

/-- Python dict lookup `m[k]` (as an `Option`): first binding of `k`. -/
def getKey {α : Type} (m : List (String × α)) (k : String) : Option α :=
  match m with
  | [] => none
  | (k', v) :: rest => if k' = k then some v else getKey rest k

/-- Python dict assignment `m[k] = v`: replace in place if the key exists,
append at the end otherwise (CPython insertion-order semantics). -/
def setKey {α : Type} (m : List (String × α)) (k : String) (v : α) : List (String × α) :=
  match m with
  | [] => [(k, v)]
  | (k', v') :: rest => if k' = k then (k, v) :: rest else (k', v') :: setKey rest k v

/-- Python `k in m`. -/
def hasKey {α : Type} (m : List (String × α)) (k : String) : Bool :=
  (getKey m k).isSome

/-- TOML values as produced by `tomli.load`: strings, arrays, tables, and the
remaining scalar kinds a template may contain. -/
inductive Toml where
  | str (s : String)
  | int (n : Int)
  | bool (b : Bool)
  | arr (xs : List Toml)
  | table (kvs : List (String × Toml))

/-- The project table's "optional-dependencies" entry viewed as a TOML value:
each namespace maps to its array of specifier strings. -/
def encodeGroups (m : List (String × List String)) : Toml :=
  Toml.table (m.map fun kv => (kv.1, Toml.arr (kv.2.map Toml.str)))

/-- The project table's "scripts" entry viewed as a TOML value. -/
def encodeScripts (m : List (String × String)) : Toml :=
  Toml.table (m.map fun kv => (kv.1, Toml.str kv.2))

/-- Iterating over Python's `set(xs)` and collecting the elements: one
occurrence of each distinct element of `xs`.  CPython's iteration order over
a set is unspecified; first-occurrence order is the representative used here
(the claims only speak about the underlying set of elements). -/
def pySetAux : List String → List String → List String
  | acc, [] => acc
  | acc, x :: rest => pySetAux (if x ∈ acc then acc else acc ++ [x]) rest

/-- `set(xs)` as a duplicate-free list. -/
def pySet (xs : List String) : List String :=
  pySetAux [] xs

/-- Python exceptions the embedded code can raise. -/
inductive PyErr where
  | keyError (k : String)
  | attributeError (msg : String)
deriving DecidableEq

/-- The manifest-builder state: the fields of the Python class `Pyproject`.
`template` is the loaded document's top level; the current project table is
kept in `project` (see the aliasing note in the file header), and
`Pyproject.document` reassembles `self.document`. -/
structure Pyproject where
  template : List (String × Toml)
  project : List (String × Toml)
  project_name : String
  dependencies : List String
  optional_dependencies : Option (List (String × List String))
  scripts : Option (List (String × String))
  _version : String

/-- `self.document`: the template's top level with the "project" key bound to
the current project table (the in-place mutations of the shared dict). -/
def Pyproject.document (st : Pyproject) : List (String × Toml) :=
  setKey st.template "project" (Toml.table st.project)

/-- Class attribute `Pyproject.default_dependencies`. -/
def Pyproject.default_dependencies : List String :=
  ["requests", "pydantic"]

/-- Class attribute `Pyproject.default_optional_dependencies`. -/
def Pyproject.default_optional_dependencies : List (String × List String) :=
  [("dev", ["pytest", "pyfakefs", "pytest-mock"])]

/-- `Pyproject.__init__`: seed the document from the template, extract
`self.document["project"]` (a missing key raises `KeyError`; the bundled
template's `[project]` is always a table, so a "project" value that is not a
table is treated as the same malformed-template error), and initialise the
empty builder state with default version "0.1.0". -/
def Pyproject.init (project_name : String) (template : List (String × Toml)) :
    Except PyErr Pyproject :=
  match getKey template "project" with
  | some (Toml.table t) =>
    Except.ok
      { template := template
        project := t
        project_name := project_name
        dependencies := []
        optional_dependencies := none
        scripts := none
        _version := "0.1.0" }
  | some _ => Except.error (PyErr.keyError "project")
  | none => Except.error (PyErr.keyError "project")

/-- Python's `s.replace("-", "_")`: the pattern is a single character, so the
substring replace coincides with a character-wise map. -/
def replaceDash (s : String) : String :=
  String.mk (s.data.map fun c => if c = '-' then '_' else c)

/-- Property `normalized_name`: `self.project_name.replace("-", "_")`. -/
def Pyproject.normalized_name (st : Pyproject) : String :=
  replaceDash st.project_name

/-- `Pyproject._create_table`: `self.project[name] = {}` (the returned fresh
dict is the object now stored under `name`, so callers' later writes to it
are writes to `self.project[name]`). -/
def Pyproject._create_table (st : Pyproject) (name : String) : Pyproject :=
  { st with project := setKey st.project name (Toml.table []) }

/-- `Pyproject.add_dependencies(*dependencies)`: append each element of
`set(dependencies)` to `self.dependencies`. -/
def Pyproject.add_dependencies (st : Pyproject) (dependencies : List String) :
    Pyproject :=
  { st with dependencies := st.dependencies ++ pySet dependencies }

/-- `Pyproject.add_optional_dependencies(namespace, dependencies)`.
`if not self.optional_dependencies` is Python falsiness: `None` or the empty
dict.  On the falsy branch `_create_table` installs a fresh dict under
"optional-dependencies" and rebinds the attribute to it; then the namespace
entry is created if absent and each specifier is appended in order.  The
final attribute value is mirrored into the project table, which is what the
in-place mutation of the shared dict amounts to. -/
def Pyproject.add_optional_dependencies (st : Pyproject) (nspace : String)
    (dependencies : List String) : Pyproject :=
  let falsy : Bool :=
    match st.optional_dependencies with
    | none => true
    | some m => m.isEmpty
  let st1 := if falsy then st._create_table "optional-dependencies" else st
  let m0 : List (String × List String) :=
    if falsy then [] else st.optional_dependencies.getD []
  let m1 := if hasKey m0 nspace then m0 else setKey m0 nspace []
  let m2 := setKey m1 nspace ((getKey m1 nspace).getD [] ++ dependencies)
  { st1 with
    optional_dependencies := some m2
    project := setKey st1.project "optional-dependencies" (encodeGroups m2) }

/-- `Pyproject.version(version)`: overwrite `self._version`. -/
def Pyproject.version (st : Pyproject) (version : String) : Pyproject :=
  { st with _version := version }

/-- `Pyproject.add_script(name)`: lazily install the scripts dict under
"scripts" (same falsiness test as for optional dependencies), then map
`name` to `f"{self.project_name}.main:FUNCNAME"` built from the raw project
name.  The attribute value is mirrored into the project table. -/
def Pyproject.add_script (st : Pyproject) (name : String) : Pyproject :=
  let falsy : Bool :=
    match st.scripts with
    | none => true
    | some m => m.isEmpty
  let st1 := if falsy then st._create_table "scripts" else st
  let m0 : List (String × String) := if falsy then [] else st.scripts.getD []
  let m1 := setKey m0 name (st.project_name ++ ".main:FUNCNAME")
  { st1 with
    scripts := some m1
    project := setKey st1.project "scripts" (encodeScripts m1) }

/-- `Pyproject.add_defaults`: `add_dependencies(*default_dependencies)` runs
and mutates the state; the following line evaluates
`self.add_optional_dependencies.items()`, and a bound method has no
attribute `items`, so an `AttributeError` is raised every time, before any
default optional-dependency group is applied.  The result is the mutated
state together with the raised exception. -/
def Pyproject.add_defaults (st : Pyproject) : Pyproject × Option PyErr :=
  (st.add_dependencies Pyproject.default_dependencies,
   some (PyErr.attributeError "function object has no attribute items"))

/-- `Pyproject.build`: write `name`, `dependencies` and `version` into the
project table and return the (state, document) pair — the document is the
state's `self.document` after those in-place writes. -/
def Pyproject.build (st : Pyproject) : Pyproject × List (String × Toml) :=
  let p1 := setKey st.project "name" (Toml.str st.project_name)
  let p2 := setKey p1 "dependencies" (Toml.arr (st.dependencies.map Toml.str))
  let p3 := setKey p2 "version" (Toml.str st._version)
  let st' := { st with project := p3 }
  (st', st'.document)

/-- What the `scaffold` function does to the filesystem: either it exits with
a code having touched nothing, or it creates directories and files.  Paths
are lists of segments below the target directory. -/
structure ScaffoldEffect where
  exit_code : Option Nat
  created_dirs : List (List String)
  created_files : List (List String)
deriving DecidableEq

/-- `scaffold(project_name, target_directory)`: if `os.listdir` of the target
is non-empty, print to stderr and `sys.exit(1)` having created nothing;
otherwise make `src/<package_name>/` (with `package_name` the project name
with "-" replaced by "_") and touch `main.py` and `__init__.py` inside it.
The target directory's listing stands in for the directory itself. -/
def scaffold (project_name : String) (target_listing : List String) :
    ScaffoldEffect :=
  if target_listing.length ≠ 0 then
    { exit_code := some 1, created_dirs := [], created_files := [] }
  else
    let package_name := replaceDash project_name
    { exit_code := none
      created_dirs := [["src", package_name]]
      created_files := [["src", package_name, "main.py"],
                        ["src", package_name, "__init__.py"]] }

/-- One mutating builder operation, for statements about arbitrary call
sequences. -/
inductive Op where
  | addDependencies (deps : List String)
  | addOptionalDependencies (nspace : String) (deps : List String)
  | setVersion (v : String)
  | addScript (name : String)
  | addDefaults
  | buildOp

/-- Apply one operation to the state (for `add_defaults` the state reached
when the `AttributeError` is raised; for `build` the post-write state). -/
def Op.apply (st : Pyproject) : Op → Pyproject
  | Op.addDependencies deps => st.add_dependencies deps
  | Op.addOptionalDependencies ns deps => st.add_optional_dependencies ns deps
  | Op.setVersion v => st.version v
  | Op.addScript name => st.add_script name
  | Op.addDefaults => (st.add_defaults).1
  | Op.buildOp => (st.build).1

/-- Run a sequence of operations left to right. -/
def runOps (st : Pyproject) (ops : List Op) : Pyproject :=
  ops.foldl Op.apply st

/-! ### Association-list lemmas -/

theorem getKey_setKey_self {α : Type} (m : List (String × α)) (k : String) (v : α) :
    getKey (setKey m k v) k = some v := by
  induction m with
  | nil => simp [setKey, getKey]
  | cons p rest ih =>
    obtain ⟨k', v'⟩ := p
    by_cases h : k' = k
    · simp [setKey, getKey, h]
    · simp [setKey, getKey, h, ih]

theorem getKey_setKey_ne {α : Type} (m : List (String × α)) (k j : String) (v : α)
    (hne : j ≠ k) : getKey (setKey m k v) j = getKey m j := by
  induction m with
  | nil => simp [setKey, getKey, Ne.symm hne]
  | cons p rest ih =>
    obtain ⟨k', v'⟩ := p
    by_cases h : k' = k
    · subst h
      simp [setKey, getKey, Ne.symm hne]
    · by_cases h2 : k' = j
      · subst h2
        simp [setKey, getKey, h, hne]
      · simp [setKey, getKey, h, h2, ih]

theorem setKey_setKey_self {α : Type} (m : List (String × α)) (k : String) (v w : α) :
    setKey (setKey m k v) k w = setKey m k w := by
  induction m with
  | nil => simp [setKey]
  | cons p rest ih =>
    obtain ⟨k', v'⟩ := p
    by_cases h : k' = k
    · simp [setKey, h]
    · simp [setKey, h, ih]

/-! ### Properties of `pySet` -/

theorem mem_pySetAux (xs : List String) : ∀ (acc : List String) (x : String),
    x ∈ pySetAux acc xs ↔ x ∈ acc ∨ x ∈ xs := by
  induction xs with
  | nil => intro acc x; simp [pySetAux]
  | cons y rest ih =>
    intro acc x
    by_cases h : y ∈ acc
    · rw [pySetAux, if_pos h, ih]
      constructor
      · rintro (hx | hx)
        · exact Or.inl hx
        · exact Or.inr (List.mem_cons_of_mem _ hx)
      · rintro (hx | hx)
        · exact Or.inl hx
        · rcases List.mem_cons.mp hx with rfl | hx
          · exact Or.inl h
          · exact Or.inr hx
    · rw [pySetAux, if_neg h, ih]
      simp only [List.mem_append, List.mem_singleton, List.mem_cons]
      tauto

theorem pySetAux_nodup (xs : List String) : ∀ (acc : List String),
    acc.Nodup → (pySetAux acc xs).Nodup := by
  induction xs with
  | nil => intro acc h; exact h
  | cons y rest ih =>
    intro acc h
    by_cases hy : y ∈ acc
    · rw [pySetAux, if_pos hy]; exact ih acc h
    · rw [pySetAux, if_neg hy]
      refine ih _ ?_
      rw [List.nodup_append]
      refine ⟨h, List.nodup_singleton y, ?_⟩
      intro a ha hay
      rw [List.mem_singleton] at hay
      subst hay
      exact hy ha

theorem mem_pySet (xs : List String) (x : String) : x ∈ pySet xs ↔ x ∈ xs := by
  rw [pySet, mem_pySetAux]
  simp

theorem pySet_nodup (xs : List String) : (pySet xs).Nodup :=
  pySetAux_nodup xs [] List.nodup_nil

theorem pySet_nil : pySet [] = [] := rfl

/-! ### A concrete template and builder for witnesses -/

/-- A small well-formed template document: a "build-system" table and a
"project" table (as the bundled `static/pyproject.toml` has). -/
def sampleTemplate : List (String × Toml) :=
  [("build-system", Toml.table [("requires", Toml.arr [Toml.str "setuptools"])]),
   ("project", Toml.table [("readme", Toml.str "README.md")])]

/-- The builder `Pyproject(name)` constructed over `sampleTemplate`. -/
def mkBuilder (name : String) : Pyproject :=
  { template := sampleTemplate
    project := [("readme", Toml.str "README.md")]
    project_name := name
    dependencies := []
    optional_dependencies := none
    scripts := none
    _version := "0.1.0" }

theorem init_sampleTemplate (name : String) :
    Pyproject.init name sampleTemplate = Except.ok (mkBuilder name) := rfl

/-- C1: one `add_dependencies` call appends exactly one block: the appended
block is duplicate-free, its elements are exactly the elements of the input,
the previously accumulated dependencies are preserved as an unchanged
prefix, and an empty input leaves the dependency list unchanged. -/
theorem add_dependencies_correct (st : Pyproject) (deps : List String) :
    (st.add_dependencies deps).dependencies = st.dependencies ++ pySet deps ∧
    (pySet deps).Nodup ∧
    (∀ x, x ∈ pySet deps ↔ x ∈ deps) ∧
    (st.add_dependencies []).dependencies = st.dependencies := by
  refine ⟨rfl, pySet_nodup deps, fun x => mem_pySet deps x, ?_⟩
  simp [Pyproject.add_dependencies, pySet, pySetAux]

theorem setKey_ne_nil {α : Type} (m : List (String × α)) (k : String) (v : α) :
    setKey m k v ≠ [] := by
  cases m with
  | nil => simp [setKey]
  | cons p rest =>
    obtain ⟨k', v'⟩ := p
    by_cases h : k' = k <;> simp [setKey, h]

/-- The document's "project" entry is the current project table. -/
theorem document_project (st : Pyproject) :
    getKey st.document "project" = some (Toml.table st.project) :=
  getKey_setKey_self st.template "project" (Toml.table st.project)

/-- Fields of a successfully constructed builder. -/
theorem init_ok_inv (name : String) (template : List (String × Toml)) (st : Pyproject)
    (h : Pyproject.init name template = Except.ok st) :
    st.template = template ∧ getKey template "project" = some (Toml.table st.project) ∧
    st.project_name = name ∧ st.dependencies = [] ∧
    st.optional_dependencies = none ∧ st.scripts = none ∧ st._version = "0.1.0" := by
  unfold Pyproject.init at h
  cases hg : getKey template "project" with
  | none => rw [hg] at h; exact absurd h (by simp)
  | some v =>
    cases v with
    | table t =>
      rw [hg] at h
      simp only [Except.ok.injEq] at h
      subst h
      exact ⟨rfl, rfl, rfl, rfl, rfl, rfl, rfl⟩
    | str s => rw [hg] at h; exact absurd h (by simp)
    | int n => rw [hg] at h; exact absurd h (by simp)
    | bool b => rw [hg] at h; exact absurd h (by simp)
    | arr xs => rw [hg] at h; exact absurd h (by simp)

/-! ### Sequences of `add_optional_dependencies` calls -/

/-- Apply a sequence of `(namespace, dependencies)` calls in order. -/
def runOptCalls (st : Pyproject) (calls : List (String × List String)) : Pyproject :=
  calls.foldl (fun s c => s.add_optional_dependencies c.1 c.2) st

/-- Concatenation, in call order, of the lists supplied for one namespace. -/
def groupJoin (ns : String) (calls : List (String × List String)) : List String :=
  ((calls.filter (fun c => c.1 == ns)).map Prod.snd).flatten

theorem groupJoin_cons_eq (ns : String) (c : String × List String)
    (rest : List (String × List String)) (h : c.1 = ns) :
    groupJoin ns (c :: rest) = c.2 ++ groupJoin ns rest := by
  simp [groupJoin, List.filter_cons, h]

theorem groupJoin_cons_ne (ns : String) (c : String × List String)
    (rest : List (String × List String)) (h : ¬c.1 = ns) :
    groupJoin ns (c :: rest) = groupJoin ns rest := by
  simp [groupJoin, List.filter_cons, h]

theorem groupJoin_eq_nil (ns : String) (calls : List (String × List String))
    (h : ns ∉ calls.map Prod.fst) : groupJoin ns calls = [] := by
  induction calls with
  | nil => rfl
  | cons c rest ih =>
    simp only [List.map_cons, List.mem_cons] at h
    push_neg at h
    rw [groupJoin_cons_ne ns c rest (fun hc => h.1 hc.symm)]
    exact ih h.2

/-- The first `add_optional_dependencies` call of a builder's lifetime:
the attribute becomes the one-entry table and the project table gets it
under "optional-dependencies". -/
theorem add_opt_first (st : Pyproject) (hm : st.optional_dependencies = none)
    (ns : String) (deps : List String) :
    (st.add_optional_dependencies ns deps).optional_dependencies = some [(ns, deps)] ∧
    (st.add_optional_dependencies ns deps).project =
      setKey st.project "optional-dependencies" (encodeGroups [(ns, deps)]) := by
  constructor
  · simp [Pyproject.add_optional_dependencies, hm, hasKey, getKey, setKey]
  · simp [Pyproject.add_optional_dependencies, hm, hasKey, getKey, setKey,
          Pyproject._create_table, setKey_setKey_self]

/-- An `add_optional_dependencies` call on a builder whose groups table is
already a non-empty dict: the named group gets the specifiers appended,
other groups are untouched, and the project table tracks the new value. -/
theorem add_opt_step (st : Pyproject) (m : List (String × List String))
    (hm : st.optional_dependencies = some m) (hne : m ≠ []) (ns : String)
    (deps : List String) :
    ∃ m2, (st.add_optional_dependencies ns deps).optional_dependencies = some m2 ∧
      (st.add_optional_dependencies ns deps).project =
        setKey st.project "optional-dependencies" (encodeGroups m2) ∧
      m2 ≠ [] ∧
      getKey m2 ns = some ((getKey m ns).getD [] ++ deps) ∧
      (∀ ns', ns' ≠ ns → getKey m2 ns' = getKey m ns') := by
  have hempty : m.isEmpty = false := by
    cases m with
    | nil => exact absurd rfl hne
    | cons a b => rfl
  by_cases hk : hasKey m ns = true
  · refine ⟨setKey m ns ((getKey m ns).getD [] ++ deps), ?_, ?_, setKey_ne_nil _ _ _,
      getKey_setKey_self _ _ _, fun ns' hns' => getKey_setKey_ne _ _ _ _ hns'⟩
    · simp [Pyproject.add_optional_dependencies, hm, hempty, hk]
    · simp [Pyproject.add_optional_dependencies, hm, hempty, hk]
  · have hget : getKey m ns = none := by
      unfold hasKey at hk
      cases h : getKey m ns with
      | none => rfl
      | some v => rw [h] at hk; exact absurd rfl hk
    have hmid : getKey (setKey m ns []) ns = some [] := getKey_setKey_self _ _ _
    refine ⟨setKey (setKey m ns []) ns ((getKey (setKey m ns []) ns).getD [] ++ deps),
      ?_, ?_, setKey_ne_nil _ _ _, ?_, ?_⟩
    · simp [Pyproject.add_optional_dependencies, hm, hempty, hk]
    · simp [Pyproject.add_optional_dependencies, hm, hempty, hk]
    · rw [getKey_setKey_self]
      simp [hmid, hget]
    · intro ns' hns'
      rw [getKey_setKey_ne _ _ _ _ hns', getKey_setKey_ne _ _ _ _ hns']

/-- Running calls from a state whose groups dict is already a non-empty
table: the final group of each namespace is its old value extended by the
concatenation of the lists supplied for it, and the project table tracks the
attribute. -/
theorem runOptCalls_inv (calls : List (String × List String)) :
    ∀ (st : Pyproject) (m : List (String × List String)),
      st.optional_dependencies = some m → m ≠ [] →
      getKey st.project "optional-dependencies" = some (encodeGroups m) →
      ∃ m', (runOptCalls st calls).optional_dependencies = some m' ∧ m' ≠ [] ∧
        getKey (runOptCalls st calls).project "optional-dependencies" =
          some (encodeGroups m') ∧
        ∀ ns, getKey m' ns =
          if ns ∈ calls.map Prod.fst then
            some ((getKey m ns).getD [] ++ groupJoin ns calls)
          else getKey m ns := by
  induction calls with
  | nil =>
    intro st m hm hne hsync
    refine ⟨m, hm, hne, hsync, fun ns => ?_⟩
    simp [groupJoin]
  | cons c rest ih =>
    intro st m hm hne hsync
    obtain ⟨m2, h1, h2, hne2, h4, h5⟩ := add_opt_step st m hm hne c.1 c.2
    have hsync2 : getKey (st.add_optional_dependencies c.1 c.2).project
        "optional-dependencies" = some (encodeGroups m2) := by
      rw [h2]; exact getKey_setKey_self _ _ _
    obtain ⟨m', hm', hne', hsync', hchar⟩ :=
      ih (st.add_optional_dependencies c.1 c.2) m2 h1 hne2 hsync2
    have hrun : runOptCalls st (c :: rest) =
        runOptCalls (st.add_optional_dependencies c.1 c.2) rest := rfl
    refine ⟨m', by rw [hrun]; exact hm', hne', by rw [hrun]; exact hsync', fun ns => ?_⟩
    rw [hchar ns]
    simp only [List.map_cons, List.mem_cons]
    by_cases hcns : ns = c.1
    · rw [hcns, groupJoin_cons_eq c.1 c rest rfl]
      by_cases hmem : c.1 ∈ List.map Prod.fst rest
      · rw [if_pos hmem, if_pos (Or.inl rfl), h4]
        simp [List.append_assoc]
      · rw [if_neg hmem, if_pos (Or.inl rfl), h4, groupJoin_eq_nil c.1 rest hmem]
        simp
    · rw [h5 ns hcns, groupJoin_cons_ne ns c rest (fun hc => hcns hc.symm)]
      by_cases hmem : ns ∈ List.map Prod.fst rest
      · rw [if_pos hmem, if_pos (Or.inr hmem)]
      · rw [if_neg hmem, if_neg ?_]
        rintro (h | h)
        · exact hcns h
        · exact hmem h

/-- C2: on a freshly constructed builder, the first
`add_optional_dependencies` call installs the groups table into the document
under the key "optional-dependencies"; a named group is created on its first
use; and after any non-empty sequence of calls each namespace's group is the
concatenation, in call order with duplicates kept, of all lists supplied for
it (while namespaces never supplied have no group). -/
theorem add_optional_dependencies_correct (name : String)
    (template : List (String × Toml)) (st0 : Pyproject)
    (h0 : Pyproject.init name template = Except.ok st0)
    (calls : List (String × List String)) (hcalls : calls ≠ []) (ns : String) :
    ∃ m, (runOptCalls st0 calls).optional_dependencies = some m ∧
      getKey (runOptCalls st0 calls).project "optional-dependencies" =
        some (encodeGroups m) ∧
      getKey (runOptCalls st0 calls).document "project" =
        some (Toml.table (runOptCalls st0 calls).project) ∧
      getKey m ns =
        (if ns ∈ calls.map Prod.fst then some (groupJoin ns calls) else none) := by
  obtain ⟨c, rest, rfl⟩ : ∃ c rest, calls = c :: rest := by
    cases calls with
    | nil => exact absurd rfl hcalls
    | cons a b => exact ⟨a, b, rfl⟩
  obtain ⟨-, -, -, -, hod, -, -⟩ := init_ok_inv name template st0 h0
  obtain ⟨hfst, hproj⟩ := add_opt_first st0 hod c.1 c.2
  have hsync1 : getKey (st0.add_optional_dependencies c.1 c.2).project
      "optional-dependencies" = some (encodeGroups [(c.1, c.2)]) := by
    rw [hproj]; exact getKey_setKey_self _ _ _
  obtain ⟨m', hm', hne', hsync', hchar⟩ :=
    runOptCalls_inv rest (st0.add_optional_dependencies c.1 c.2) [(c.1, c.2)]
      hfst (by simp) hsync1
  have hrun : runOptCalls st0 (c :: rest) =
      runOptCalls (st0.add_optional_dependencies c.1 c.2) rest := rfl
  refine ⟨m', by rw [hrun]; exact hm', by rw [hrun]; exact hsync',
    document_project _, ?_⟩
  rw [hchar ns]
  simp only [List.map_cons, List.mem_cons]
  by_cases hcns : ns = c.1
  · rw [hcns, groupJoin_cons_eq c.1 c rest rfl]
    have hg1 : getKey [(c.1, c.2)] c.1 = some c.2 := by simp [getKey]
    by_cases hmem : c.1 ∈ List.map Prod.fst rest
    · rw [if_pos hmem, if_pos (Or.inl rfl), hg1]
      simp
    · rw [if_neg hmem, if_pos (Or.inl rfl), hg1, groupJoin_eq_nil c.1 rest hmem]
      simp
  · have hg0 : getKey [(c.1, c.2)] ns = none := by
      simp [getKey, Ne.symm hcns]
    rw [hg0, groupJoin_cons_ne ns c rest (fun hc => hcns hc.symm)]
    by_cases hmem : ns ∈ List.map Prod.fst rest
    · rw [if_pos hmem, if_pos (Or.inr hmem)]
      simp
    · rw [if_neg hmem, if_neg ?_]
      rintro (h | h)
      · exact hcns h
      · exact hmem h

/-- Witness for C2: three calls over two namespaces on a concrete builder. -/
theorem add_optional_dependencies_correct_witness :
    ∃ m, (runOptCalls (mkBuilder "demo")
        [("dev", ["a", "b"]), ("test", ["c"]), ("dev", ["a"])]).optional_dependencies =
          some m ∧
      getKey (runOptCalls (mkBuilder "demo")
        [("dev", ["a", "b"]), ("test", ["c"]), ("dev", ["a"])]).project
          "optional-dependencies" = some (encodeGroups m) ∧
      getKey (runOptCalls (mkBuilder "demo")
        [("dev", ["a", "b"]), ("test", ["c"]), ("dev", ["a"])]).document "project" =
        some (Toml.table (runOptCalls (mkBuilder "demo")
          [("dev", ["a", "b"]), ("test", ["c"]), ("dev", ["a"])]).project) ∧
      getKey m "dev" =
        (if "dev" ∈ ([("dev", ["a", "b"]), ("test", ["c"]),
            ("dev", ["a"])].map Prod.fst) then
          some (groupJoin "dev" [("dev", ["a", "b"]), ("test", ["c"]), ("dev", ["a"])])
        else none) :=
  add_optional_dependencies_correct "demo" sampleTemplate (mkBuilder "demo") rfl
    [("dev", ["a", "b"]), ("test", ["c"]), ("dev", ["a"])]
    (List.cons_ne_nil _ _) "dev"

/-! ### Sequences of `add_script` calls -/

/-- Apply a sequence of `add_script` calls in order. -/
def runScriptCalls (st : Pyproject) (names : List String) : Pyproject :=
  names.foldl Pyproject.add_script st

/-- The first `add_script` call of a builder's lifetime. -/
theorem add_script_first (st : Pyproject) (hm : st.scripts = none) (name : String) :
    (st.add_script name).scripts =
      some [(name, st.project_name ++ ".main:FUNCNAME")] ∧
    (st.add_script name).project = setKey st.project "scripts"
      (encodeScripts [(name, st.project_name ++ ".main:FUNCNAME")]) := by
  constructor
  · simp [Pyproject.add_script, hm, setKey]
  · simp [Pyproject.add_script, hm, setKey, Pyproject._create_table,
          setKey_setKey_self]

/-- An `add_script` call on a builder whose scripts dict is already a
non-empty table. -/
theorem add_script_step (st : Pyproject) (m : List (String × String))
    (hm : st.scripts = some m) (hne : m ≠ []) (name : String) :
    (st.add_script name).scripts =
      some (setKey m name (st.project_name ++ ".main:FUNCNAME")) ∧
    (st.add_script name).project = setKey st.project "scripts"
      (encodeScripts (setKey m name (st.project_name ++ ".main:FUNCNAME"))) := by
  have hempty : m.isEmpty = false := by
    cases m with
    | nil => exact absurd rfl hne
    | cons a b => rfl
  constructor <;> simp [Pyproject.add_script, hm, hempty]

theorem add_script_project_name (st : Pyproject) (name : String) :
    (st.add_script name).project_name = st.project_name := by
  unfold Pyproject.add_script Pyproject._create_table
  cases h : st.scripts with
  | none => rfl
  | some m =>
    cases m with
    | nil => rfl
    | cons a b => rfl

/-- Running `add_script` calls from a state whose scripts dict is already a
non-empty table: every called name maps to the raw-name entry point, other
names are untouched, and the project table tracks the attribute. -/
theorem runScriptCalls_inv (names : List String) :
    ∀ (st : Pyproject) (m : List (String × String)),
      st.scripts = some m → m ≠ [] →
      getKey st.project "scripts" = some (encodeScripts m) →
      ∃ m', (runScriptCalls st names).scripts = some m' ∧ m' ≠ [] ∧
        getKey (runScriptCalls st names).project "scripts" =
          some (encodeScripts m') ∧
        (∀ n, n ∈ names → getKey m' n =
          some (st.project_name ++ ".main:FUNCNAME")) ∧
        (∀ n, n ∉ names → getKey m' n = getKey m n) := by
  induction names with
  | nil =>
    intro st m hm hne hsync
    exact ⟨m, hm, hne, hsync, fun n hn => absurd hn (List.not_mem_nil n),
      fun n _ => rfl⟩
  | cons a rest ih =>
    intro st m hm hne hsync
    obtain ⟨h1, h2⟩ := add_script_step st m hm hne a
    have hsync2 : getKey (st.add_script a).project "scripts" =
        some (encodeScripts (setKey m a (st.project_name ++ ".main:FUNCNAME"))) := by
      rw [h2]; exact getKey_setKey_self _ _ _
    obtain ⟨m', hm', hne', hsync', hmem, hnot⟩ :=
      ih (st.add_script a) (setKey m a (st.project_name ++ ".main:FUNCNAME")) h1
        (setKey_ne_nil _ _ _) hsync2
    have hpn : (st.add_script a).project_name = st.project_name :=
      add_script_project_name st a
    have hrun : runScriptCalls st (a :: rest) =
        runScriptCalls (st.add_script a) rest := rfl
    refine ⟨m', by rw [hrun]; exact hm', hne', by rw [hrun]; exact hsync', ?_, ?_⟩
    · intro n hn
      rcases List.mem_cons.mp hn with rfl | hn
      · by_cases hr : n ∈ rest
        · rw [hmem n hr, hpn]
        · rw [hnot n hr, getKey_setKey_self]
      · rw [hmem n hn, hpn]
    · intro n hn
      rw [List.mem_cons] at hn
      push_neg at hn
      rw [hnot n hn.2, getKey_setKey_ne _ _ _ _ hn.1]

/-- C5: on a freshly constructed builder with raw project name `p`, the
scripts table is installed into the document under the key "scripts" by the
first `add_script` call, and after any non-empty sequence of calls every
called name maps to `p ++ ".main:FUNCNAME"` built from the raw
(unnormalized) project name; in particular with project name "my-app",
`add_script "run"` yields `scripts["run"] == "my-app.main:FUNCNAME"`. -/
theorem add_script_correct (p : String) (template : List (String × Toml))
    (st0 : Pyproject) (h0 : Pyproject.init p template = Except.ok st0)
    (names : List String) (hne : names ≠ []) :
    (∃ m, (runScriptCalls st0 names).scripts = some m ∧
      getKey (runScriptCalls st0 names).project "scripts" =
        some (encodeScripts m) ∧
      getKey (runScriptCalls st0 names).document "project" =
        some (Toml.table (runScriptCalls st0 names).project) ∧
      (∀ n, n ∈ names → getKey m n = some (p ++ ".main:FUNCNAME"))) ∧
    getKey (((mkBuilder "my-app").add_script "run").scripts.getD []) "run" =
      some "my-app.main:FUNCNAME" := by
  refine ⟨?_, rfl⟩
  obtain ⟨c, rest, rfl⟩ : ∃ c rest, names = c :: rest := by
    cases names with
    | nil => exact absurd rfl hne
    | cons a b => exact ⟨a, b, rfl⟩
  obtain ⟨-, -, hpn, -, -, hsc, -⟩ := init_ok_inv p template st0 h0
  obtain ⟨h1, h2⟩ := add_script_first st0 hsc c
  have hsync1 : getKey (st0.add_script c).project "scripts" =
      some (encodeScripts [(c, st0.project_name ++ ".main:FUNCNAME")]) := by
    rw [h2]; exact getKey_setKey_self _ _ _
  obtain ⟨m', hm', hne', hsync', hmem, hnot⟩ :=
    runScriptCalls_inv rest (st0.add_script c)
      [(c, st0.project_name ++ ".main:FUNCNAME")] h1 (List.cons_ne_nil _ _) hsync1
  have hpn2 : (st0.add_script c).project_name = st0.project_name :=
    add_script_project_name st0 c
  have hrun : runScriptCalls st0 (c :: rest) =
      runScriptCalls (st0.add_script c) rest := rfl
  refine ⟨m', by rw [hrun]; exact hm', by rw [hrun]; exact hsync',
    document_project _, ?_⟩
  intro n hn
  rcases List.mem_cons.mp hn with rfl | hn
  · by_cases hr : n ∈ rest
    · rw [hmem n hr, hpn2, hpn]
    · rw [hnot n hr]
      simp [getKey, hpn]
  · rw [hmem n hn, hpn2, hpn]

/-- Witness for C5: builder "my-app", scripts "run" then "serve". -/
theorem add_script_correct_witness :
    (∃ m, (runScriptCalls (mkBuilder "my-app") ["run", "serve"]).scripts = some m ∧
      getKey (runScriptCalls (mkBuilder "my-app") ["run", "serve"]).project
        "scripts" = some (encodeScripts m) ∧
      getKey (runScriptCalls (mkBuilder "my-app") ["run", "serve"]).document
        "project" = some (Toml.table
          (runScriptCalls (mkBuilder "my-app") ["run", "serve"]).project) ∧
      (∀ n, n ∈ ["run", "serve"] →
        getKey m n = some ("my-app" ++ ".main:FUNCNAME"))) ∧
    getKey (((mkBuilder "my-app").add_script "run").scripts.getD []) "run" =
      some "my-app.main:FUNCNAME" :=
  add_script_correct "my-app" sampleTemplate (mkBuilder "my-app") rfl
    ["run", "serve"] (List.cons_ne_nil _ _)

/-! ### Field-preservation lemmas for the operations -/

theorem add_optional_dependencies_keeps_version (st : Pyproject) (ns : String)
    (deps : List String) :
    (st.add_optional_dependencies ns deps)._version = st._version := by
  unfold Pyproject.add_optional_dependencies Pyproject._create_table
  cases h : st.optional_dependencies with
  | none => rfl
  | some m =>
    cases m with
    | nil => rfl
    | cons a b => rfl

theorem add_script_keeps_version (st : Pyproject) (name : String) :
    (st.add_script name)._version = st._version := by
  unfold Pyproject.add_script Pyproject._create_table
  cases h : st.scripts with
  | none => rfl
  | some m =>
    cases m with
    | nil => rfl
    | cons a b => rfl

/-- The version dimension of one operation: `setVersion` overwrites the
stored version, every other operation leaves it alone. -/
theorem apply_version (st : Pyproject) (op : Op) :
    (Op.apply st op)._version =
      match op with
      | Op.setVersion v => v
      | _ => st._version := by
  cases op with
  | addDependencies deps => rfl
  | addOptionalDependencies ns deps =>
    exact add_optional_dependencies_keeps_version st ns deps
  | setVersion v => rfl
  | addScript name => exact add_script_keeps_version st name
  | addDefaults => rfl
  | buildOp => rfl

/-- The arguments of the `setVersion` calls of a sequence, in order. -/
def versionWrites (ops : List Op) : List String :=
  ops.filterMap fun op =>
    match op with
    | Op.setVersion v => some v
    | _ => none

theorem getLast?_getD_cons (v d : String) (l : List String) :
    ((v :: l).getLast?).getD d = (l.getLast?).getD v := by
  cases l with
  | nil => rfl
  | cons x xs => rw [List.getLast?_cons_cons]; cases h : (x :: xs).getLast? with
    | none => exact absurd h (by simp)
    | some y => rfl

/-- After any operation sequence the stored version is the last `setVersion`
argument, or the starting version if there was none. -/
theorem runOps_version (ops : List Op) : ∀ (st : Pyproject),
    (runOps st ops)._version = ((versionWrites ops).getLast?).getD st._version := by
  induction ops with
  | nil => intro st; rfl
  | cons op rest ih =>
    intro st
    have hrun : runOps st (op :: rest) = runOps (Op.apply st op) rest := rfl
    rw [hrun, ih (Op.apply st op), apply_version]
    cases op with
    | setVersion v =>
      show ((versionWrites rest).getLast?).getD v =
        ((versionWrites (Op.setVersion v :: rest)).getLast?).getD st._version
      rw [show versionWrites (Op.setVersion v :: rest) = v :: versionWrites rest from rfl,
        getLast?_getD_cons]
    | addDependencies deps => rfl
    | addOptionalDependencies ns deps => rfl
    | addScript name => rfl
    | addDefaults => rfl
    | buildOp => rfl

/-! ### The finalized document -/

theorem build_snd (st : Pyproject) : (st.build).2 = ((st.build).1).document := rfl

theorem build_project_name (st : Pyproject) :
    getKey ((st.build).1).project "name" = some (Toml.str st.project_name) := by
  show getKey (setKey (setKey (setKey st.project "name" (Toml.str st.project_name))
    "dependencies" (Toml.arr (st.dependencies.map Toml.str)))
    "version" (Toml.str st._version)) "name" = some (Toml.str st.project_name)
  rw [getKey_setKey_ne _ _ _ _ (by decide), getKey_setKey_ne _ _ _ _ (by decide),
    getKey_setKey_self]

theorem build_project_deps (st : Pyproject) :
    getKey ((st.build).1).project "dependencies" =
      some (Toml.arr (st.dependencies.map Toml.str)) := by
  show getKey (setKey (setKey (setKey st.project "name" (Toml.str st.project_name))
    "dependencies" (Toml.arr (st.dependencies.map Toml.str)))
    "version" (Toml.str st._version)) "dependencies" =
    some (Toml.arr (st.dependencies.map Toml.str))
  rw [getKey_setKey_ne _ _ _ _ (by decide), getKey_setKey_self]

theorem build_project_version (st : Pyproject) :
    getKey ((st.build).1).project "version" = some (Toml.str st._version) := by
  show getKey (setKey (setKey (setKey st.project "name" (Toml.str st.project_name))
    "dependencies" (Toml.arr (st.dependencies.map Toml.str)))
    "version" (Toml.str st._version)) "version" = some (Toml.str st._version)
  exact getKey_setKey_self _ _ _

/-- C6: the finalized document's project.version is the argument of the last
`set_version` call of the operation sequence, and "0.1.0" when `set_version`
was never called. -/
theorem version_correct (name : String) (template : List (String × Toml))
    (st0 : Pyproject) (h0 : Pyproject.init name template = Except.ok st0)
    (ops : List Op) :
    ∃ proj, getKey ((runOps st0 ops).build).2 "project" = some (Toml.table proj) ∧
      getKey proj "version" =
        some (Toml.str (((versionWrites ops).getLast?).getD "0.1.0")) := by
  obtain ⟨-, -, -, -, -, -, hv⟩ := init_ok_inv name template st0 h0
  refine ⟨((runOps st0 ops).build).1.project, ?_, ?_⟩
  · rw [build_snd]
    exact document_project _
  · rw [build_project_version, runOps_version, hv]

/-- Witness for C6: two `set_version` calls; the last one ("2.3.4") wins. -/
theorem version_correct_witness :
    ∃ proj, getKey ((runOps (mkBuilder "demo")
        [Op.setVersion "9.9.9", Op.addScript "run", Op.setVersion "2.3.4"]).build).2
        "project" = some (Toml.table proj) ∧
      getKey proj "version" =
        some (Toml.str (((versionWrites [Op.setVersion "9.9.9", Op.addScript "run",
          Op.setVersion "2.3.4"]).getLast?).getD "0.1.0")) :=
  version_correct "demo" sampleTemplate (mkBuilder "demo") rfl
    [Op.setVersion "9.9.9", Op.addScript "run", Op.setVersion "2.3.4"]

theorem setKey_getKey_self {α : Type} (m : List (String × α)) (k : String) (v : α)
    (h : getKey m k = some v) : setKey m k v = m := by
  induction m with
  | nil => simp [getKey] at h
  | cons p rest ih =>
    obtain ⟨k', v'⟩ := p
    by_cases hk : k' = k
    · subst hk
      rw [getKey, if_pos rfl] at h
      rw [setKey, if_pos rfl]
      simp only [Option.some.injEq] at h
      rw [h]
    · rw [getKey, if_neg hk] at h
      rw [setKey, if_neg hk, ih h]

theorem triple_setKey_collapse (p : List (String × Toml)) (nv dv vv : Toml) :
    setKey (setKey (setKey
      (setKey (setKey (setKey p "name" nv) "dependencies" dv) "version" vv)
      "name" nv) "dependencies" dv) "version" vv =
    setKey (setKey (setKey p "name" nv) "dependencies" dv) "version" vv := by
  have hname : getKey (setKey (setKey (setKey p "name" nv) "dependencies" dv)
      "version" vv) "name" = some nv := by
    rw [getKey_setKey_ne _ _ _ _ (by decide), getKey_setKey_ne _ _ _ _ (by decide),
      getKey_setKey_self]
  have hdeps : getKey (setKey (setKey (setKey p "name" nv) "dependencies" dv)
      "version" vv) "dependencies" = some dv := by
    rw [getKey_setKey_ne _ _ _ _ (by decide), getKey_setKey_self]
  have hver : getKey (setKey (setKey (setKey p "name" nv) "dependencies" dv)
      "version" vv) "version" = some vv := getKey_setKey_self _ _ _
  rw [setKey_getKey_self _ _ _ hname, setKey_getKey_self _ _ _ hdeps,
    setKey_getKey_self _ _ _ hver]

/-- C7: `build` is idempotent — calling it again on the state returned by a
first call, with no intervening mutation, re-derives the same fields and
returns the same state and the same document. -/
theorem build_idempotent (st : Pyproject) : ((st.build).1).build = st.build := by
  simp only [Pyproject.build, Pyproject.document]
  rw [triple_setKey_collapse]

/-! ### The `add_defaults` defect (C3, C4) -/

/-- C3: `add_defaults` never applies the default optional-dependency groups:
after appending the default dependency list it raises `AttributeError`
(line 82 iterates over the bound method `self.add_optional_dependencies`
instead of over `default_optional_dependencies`), leaving the
optional-dependency state untouched on every builder. -/
theorem add_defaults_raises (st : Pyproject) :
    (st.add_defaults).2 =
      some (PyErr.attributeError "function object has no attribute items") ∧
    (st.add_defaults).1 = st.add_dependencies Pyproject.default_dependencies ∧
    ((st.add_defaults).1).optional_dependencies = st.optional_dependencies :=
  ⟨rfl, rfl, rfl⟩

/-- C4: the totality claim fails at `apply_defaults`: `add_defaults` raises
an `AttributeError` on every builder state; moreover a template without a
"project" table makes construction raise a plain `KeyError` — the code has
no `MalformedTemplateError` class at all. -/
theorem add_defaults_not_total (st : Pyproject) (name : String) :
    (st.add_defaults).2 =
      some (PyErr.attributeError "function object has no attribute items") ∧
    Pyproject.init name [] = Except.error (PyErr.keyError "project") :=
  ⟨rfl, rfl⟩

/-! ### Name normalization (C8) -/

/-- Modelled from the spec: "normalized name (non-alphanumeric separators
replaced with underscores)" — every non-alphanumeric character of the raw
name is replaced by an underscore. -/
def specNormalize (s : String) : String :=
  String.mk (s.data.map fun c => if c.isAlphanum then c else '_')

/-- C8 counterexample: for raw project name "my.app" the code keeps the dot
(only hyphens are replaced), while replacing every non-alphanumeric
separator would give "my_app". -/
theorem normalized_name_counterexample :
    (mkBuilder "my.app").normalized_name = "my.app" ∧
    specNormalize "my.app" = "my_app" ∧
    (mkBuilder "my.app").normalized_name ≠ specNormalize "my.app" := by
  refine ⟨by decide, by decide, by decide⟩

/-- C8 amended: the normalized name is a pure function of the raw project
name (builders with the same raw name agree) that replaces every hyphen with
an underscore and leaves every other character — alphanumeric or not — in
place, preserving length. -/
theorem normalized_name_correct (st st' : Pyproject)
    (h : st.project_name = st'.project_name) :
    st.normalized_name = st'.normalized_name ∧
    (st.normalized_name).data =
      (st.project_name).data.map (fun c => if c = '-' then '_' else c) ∧
    (∀ c, c ∈ (st.normalized_name).data → c ≠ '-') ∧
    (st.normalized_name).length = (st.project_name).length := by
  refine ⟨?_, rfl, ?_, ?_⟩
  · unfold Pyproject.normalized_name
    rw [h]
  · intro c hc
    rw [show (st.normalized_name).data =
      (st.project_name).data.map (fun c => if c = '-' then '_' else c) from rfl] at hc
    obtain ⟨a, -, rfl⟩ := List.mem_map.mp hc
    by_cases ha : a = '-'
    · simp [ha]
    · simp [ha]
  · show ((st.project_name).data.map (fun c => if c = '-' then '_' else c)).length =
      (st.project_name).data.length
    exact List.length_map _ _

/-- Witness for the amended C8 statement at raw name "my-app". -/
theorem normalized_name_correct_witness :
    (mkBuilder "my-app").normalized_name = (mkBuilder "my-app").normalized_name ∧
    ((mkBuilder "my-app").normalized_name).data =
      ((mkBuilder "my-app").project_name).data.map
        (fun c => if c = '-' then '_' else c) ∧
    (∀ c, c ∈ ((mkBuilder "my-app").normalized_name).data → c ≠ '-') ∧
    ((mkBuilder "my-app").normalized_name).length =
      ((mkBuilder "my-app").project_name).length :=
  normalized_name_correct (mkBuilder "my-app") (mkBuilder "my-app") rfl

/-! ### Scaffolding (C9) -/

/-- C9: `scaffold` on a non-empty target directory exits with code 1 having
created no directories and no files; on an empty target directory it creates
`src/<normalized_name>/` with the `main.py` and `__init__.py` placeholder
files and no exit. -/
theorem scaffold_correct (project_name : String) (listing : List String) :
    (listing ≠ [] → scaffold project_name listing =
      { exit_code := some 1, created_dirs := [], created_files := [] }) ∧
    (listing = [] → scaffold project_name listing =
      { exit_code := none,
        created_dirs := [["src", replaceDash project_name]],
        created_files := [["src", replaceDash project_name, "main.py"],
                          ["src", replaceDash project_name, "__init__.py"]] }) := by
  constructor
  · intro h
    rw [scaffold, if_pos]
    simpa using h
  · intro h
    subst h
    rfl

/-- Witness for C9: listing ["x"] is rejected with exit code 1 and no
writes; the empty listing gets the `src/my_app/` layout. -/
theorem scaffold_correct_witness :
    scaffold "my-app" ["x"] =
      { exit_code := some 1, created_dirs := [], created_files := [] } ∧
    scaffold "my-app" [] =
      { exit_code := none,
        created_dirs := [["src", replaceDash "my-app"]],
        created_files := [["src", replaceDash "my-app", "main.py"],
                          ["src", replaceDash "my-app", "__init__.py"]] } :=
  ⟨(scaffold_correct "my-app" ["x"]).1 (by decide),
   (scaffold_correct "my-app" []).2 rfl⟩

/-! ### Frame conditions (C10) -/

/-- The only project-table keys any operation ever writes. -/
def projectWriteKeys : List String :=
  ["name", "dependencies", "version", "optional-dependencies", "scripts"]

theorem apply_template (st : Pyproject) (op : Op) :
    (Op.apply st op).template = st.template := by
  cases op with
  | addDependencies deps => rfl
  | setVersion v => rfl
  | addDefaults => rfl
  | buildOp => rfl
  | addOptionalDependencies ns deps =>
    show (st.add_optional_dependencies ns deps).template = st.template
    unfold Pyproject.add_optional_dependencies Pyproject._create_table
    cases h : st.optional_dependencies with
    | none => rfl
    | some m =>
      cases m with
      | nil => rfl
      | cons a b => rfl
  | addScript nm =>
    show (st.add_script nm).template = st.template
    unfold Pyproject.add_script Pyproject._create_table
    cases h : st.scripts with
    | none => rfl
    | some m =>
      cases m with
      | nil => rfl
      | cons a b => rfl

/-- Same as `add_opt_first` but for the other falsy value of the attribute,
an empty dict. -/
theorem add_opt_first_empty (st : Pyproject)
    (hm : st.optional_dependencies = some []) (ns : String) (deps : List String) :
    (st.add_optional_dependencies ns deps).optional_dependencies =
      some [(ns, deps)] ∧
    (st.add_optional_dependencies ns deps).project =
      setKey st.project "optional-dependencies" (encodeGroups [(ns, deps)]) := by
  constructor
  · simp [Pyproject.add_optional_dependencies, hm, hasKey, getKey, setKey]
  · simp [Pyproject.add_optional_dependencies, hm, hasKey, getKey, setKey,
          Pyproject._create_table, setKey_setKey_self]

/-- Same as `add_script_first` but for an empty scripts dict. -/
theorem add_script_first_empty (st : Pyproject) (hm : st.scripts = some [])
    (name : String) :
    (st.add_script name).scripts =
      some [(name, st.project_name ++ ".main:FUNCNAME")] ∧
    (st.add_script name).project = setKey st.project "scripts"
      (encodeScripts [(name, st.project_name ++ ".main:FUNCNAME")]) := by
  constructor
  · simp [Pyproject.add_script, hm, setKey]
  · simp [Pyproject.add_script, hm, setKey, Pyproject._create_table,
          setKey_setKey_self]

/-- `add_optional_dependencies` only writes the project table at
"optional-dependencies". -/
theorem add_opt_project_shape (st : Pyproject) (ns : String) (deps : List String) :
    ∃ g, (st.add_optional_dependencies ns deps).project =
      setKey st.project "optional-dependencies" g := by
  cases h : st.optional_dependencies with
  | none => exact ⟨_, (add_opt_first st h ns deps).2⟩
  | some m =>
    cases m with
    | nil => exact ⟨_, (add_opt_first_empty st h ns deps).2⟩
    | cons a b =>
      obtain ⟨m2, -, h2, -, -, -⟩ :=
        add_opt_step st (a :: b) h (List.cons_ne_nil _ _) ns deps
      exact ⟨encodeGroups m2, h2⟩

/-- `add_script` only writes the project table at "scripts". -/
theorem add_script_project_shape (st : Pyproject) (nm : String) :
    ∃ g, (st.add_script nm).project = setKey st.project "scripts" g := by
  cases h : st.scripts with
  | none => exact ⟨_, (add_script_first st h nm).2⟩
  | some m =>
    cases m with
    | nil => exact ⟨_, (add_script_first_empty st h nm).2⟩
    | cons a b =>
      obtain ⟨-, h2⟩ := add_script_step st (a :: b) h (List.cons_ne_nil _ _) nm
      exact ⟨_, h2⟩

/-- One operation leaves every project-table key outside
`projectWriteKeys` unchanged. -/
theorem apply_project_frame (st : Pyproject) (op : Op) (k : String)
    (hk : k ∉ projectWriteKeys) :
    getKey (Op.apply st op).project k = getKey st.project k := by
  simp only [projectWriteKeys, List.mem_cons, List.not_mem_nil, or_false,
    not_or] at hk
  obtain ⟨h1, h2, h3, h4, h5⟩ := hk
  cases op with
  | addDependencies deps => rfl
  | setVersion v => rfl
  | addDefaults => rfl
  | addOptionalDependencies ns deps =>
    obtain ⟨g, hg⟩ := add_opt_project_shape st ns deps
    show getKey (st.add_optional_dependencies ns deps).project k = getKey st.project k
    rw [hg, getKey_setKey_ne _ _ _ _ h4]
  | addScript nm =>
    obtain ⟨g, hg⟩ := add_script_project_shape st nm
    show getKey (st.add_script nm).project k = getKey st.project k
    rw [hg, getKey_setKey_ne _ _ _ _ h5]
  | buildOp =>
    show getKey (setKey (setKey (setKey st.project "name"
      (Toml.str st.project_name)) "dependencies"
      (Toml.arr (st.dependencies.map Toml.str))) "version"
      (Toml.str st._version)) k = getKey st.project k
    rw [getKey_setKey_ne _ _ _ _ h3, getKey_setKey_ne _ _ _ _ h2,
      getKey_setKey_ne _ _ _ _ h1]

theorem runOps_template (ops : List Op) : ∀ (st : Pyproject),
    (runOps st ops).template = st.template := by
  induction ops with
  | nil => intro st; rfl
  | cons op rest ih =>
    intro st
    have hrun : runOps st (op :: rest) = runOps (Op.apply st op) rest := rfl
    rw [hrun, ih (Op.apply st op), apply_template]

theorem runOps_project_frame (ops : List Op) : ∀ (st : Pyproject) (k : String),
    k ∉ projectWriteKeys →
    getKey (runOps st ops).project k = getKey st.project k := by
  induction ops with
  | nil => intro st k _; rfl
  | cons op rest ih =>
    intro st k hk
    have hrun : runOps st (op :: rest) = runOps (Op.apply st op) rest := rfl
    rw [hrun, ih (Op.apply st op) k hk, apply_project_frame st op k hk]

/-- C10: every operation sequence on a builder leaves every top-level key of
the document other than "project" bound to its original value, and within
the project table writes only the keys name, dependencies, version,
optional-dependencies and scripts. -/
theorem frame_correct (name : String) (template : List (String × Toml))
    (st0 : Pyproject) (_h0 : Pyproject.init name template = Except.ok st0)
    (ops : List Op) :
    (∀ k, k ≠ "project" →
      getKey (runOps st0 ops).document k = getKey st0.document k) ∧
    (∀ k, k ∉ projectWriteKeys →
      getKey (runOps st0 ops).project k = getKey st0.project k) := by
  refine ⟨fun k hk => ?_, fun k hk => runOps_project_frame ops st0 k hk⟩
  rw [Pyproject.document, Pyproject.document, getKey_setKey_ne _ _ _ _ hk,
    getKey_setKey_ne _ _ _ _ hk, runOps_template]

/-- Witness for C10: a sequence exercising every operation kind on a
concrete builder. -/
theorem frame_correct_witness :
    (∀ k, k ≠ "project" →
      getKey (runOps (mkBuilder "demo")
        [Op.addDependencies ["a"], Op.addOptionalDependencies "dev" ["b"],
         Op.setVersion "1.0", Op.addScript "run", Op.addDefaults,
         Op.buildOp]).document k = getKey (mkBuilder "demo").document k) ∧
    (∀ k, k ∉ projectWriteKeys →
      getKey (runOps (mkBuilder "demo")
        [Op.addDependencies ["a"], Op.addOptionalDependencies "dev" ["b"],
         Op.setVersion "1.0", Op.addScript "run", Op.addDefaults,
         Op.buildOp]).project k = getKey (mkBuilder "demo").project k) :=
  frame_correct "demo" sampleTemplate (mkBuilder "demo") rfl
    [Op.addDependencies ["a"], Op.addOptionalDependencies "dev" ["b"],
     Op.setVersion "1.0", Op.addScript "run", Op.addDefaults, Op.buildOp]
